import Mathlib

/-!
Shallow embedding of the SafetySpeak batch interpreter core: the job queue
processor (processNext and its per-item pipeline), the audio playback
controller (playAudio, pauseAudio, stopAudio, the progress sampling tick and
the natural end-of-audio handler), and the file intake path (handleFiles,
isValidFileType, isValidFileSize).

JavaScript strings are modelled as lists of characters; the external
asynchronous collaborators (text extraction, translation, speech synthesis)
are modelled by their resolved outcomes, supplied as an environment.
-/

namespace SafetySpeak

/-- JavaScript strings, modelled as their sequence of characters. -/
abbrev Str := List Char

/-- Model of the JavaScript trim operation: whitespace removed from both
ends.  The empty-content guard in processNext only inspects whether the
trimmed text is empty. -/
def jsTrim (s : Str) : Str :=
  ((s.dropWhile Char.isWhitespace).reverse.dropWhile Char.isWhitespace).reverse

/-- TargetLanguage enum from types.ts. -/
inductive TargetLanguage where
  | korean
  | english
  | chinese
  | vietnamese
  | russian
  | uzbek
deriving DecidableEq

/-- ProcessStatus from types.ts:
idle, extracting, translating, speaking, completed, error. -/
inductive ProcessStatus where
  | idle
  | extracting
  | translating
  | speaking
  | completed
  | error
deriving DecidableEq

/-- A decoded audio artifact (Web Audio AudioBuffer); only its duration in
seconds is relevant to the playback controller. -/
structure AudioBuffer where
  duration : ℚ
deriving DecidableEq

/-- A browser File: only its name and byte size are inspected by the code
under verification. -/
structure FileRef where
  name : Str
  size : Nat
deriving DecidableEq

/-- QueueItem from types.ts. -/
structure QueueItem where
  id : Str
  file : Option FileRef
  fileName : Str
  originalText : Str
  translatedText : Option Str
  targetLanguage : TargetLanguage
  status : ProcessStatus
  error : Option Str
  audioBuffer : Option AudioBuffer
deriving DecidableEq

/-- AppState from types.ts (autoPlay is never read by the core logic but is
kept for fidelity). -/
structure AppState where
  queue : List QueueItem
  selectedLanguage : TargetLanguage
  isProcessingQueue : Bool
  currentItemId : Option Str
  globalError : Option Str
  autoPlay : Bool
deriving DecidableEq

/-! ### services/fileUtils.ts -/

def MAX_FILE_SIZE_MB : Nat := 3

def MAX_FILE_SIZE_BYTES : Nat := MAX_FILE_SIZE_MB * 1024 * 1024

def validExtensions : List Str :=
  [".docx".data, ".xlsx".data, ".pptx".data, ".hwp".data, ".txt".data, ".pdf".data]

/-- isValidFileType: the lowercased file name must end in one of the
supported extensions. -/
def isValidFileType (f : FileRef) : Bool :=
  let fileName := f.name.map Char.toLower
  validExtensions.any (fun ext => ext.isSuffixOf fileName)

/-- isValidFileSize: the byte size is within the declared limit. -/
def isValidFileSize (f : FileRef) : Bool :=
  f.size ≤ MAX_FILE_SIZE_BYTES

/-! ### Pipeline (processNext in the main component)

The three gateway calls are external asynchronous operations; an
environment records the outcome each call would resolve to for the item
being processed. -/

def MAX_INPUT_LENGTH : Nat := 10000

/-- Resolved outcomes of the three external stage calls for one item:
extractTextFromFile, translateSafetyText, generateSpeech.  An error value
carries the message of the rejection. -/
structure StageOutcomes where
  extractResult : Except Str Str
  translateResult : Except Str Str
  synthesizeResult : Except Str AudioBuffer

def strNoText : Str := "번역할 텍스트가 없습니다.".data

def strEmptyContent : Str := "텍스트를 추출할 수 없거나 내용이 비어있습니다.".data

def strFileReadFail (e : Str) : Str := "파일 읽기 실패: ".data ++ e

def strTTSFail : Str := "음성 생성 실패".data

def strGenericFail : Str := "처리 중 오류 발생".data

def strUnsupportedType : Str := "지원되지 않는 파일 형식이 포함되어 있습니다.".data

/-- The catch block of processNext: mark the item error with the thrown
message, falling back to a generic message when the message is empty
(the JavaScript "error.message or fallback" idiom). -/
def errUpd (msg : Str) (x : QueueItem) : QueueItem :=
  { x with status := .error,
           error := some (if msg.isEmpty then strGenericFail else msg) }

/-- The textToTranslate computation at the top of the per-item pipeline:
use originalText if present; otherwise extract from the file, clipping the
result to MAX_INPUT_LENGTH; with neither text nor file, fail. -/
def effectiveText (env : StageOutcomes) (next : QueueItem) : Except Str Str :=
  if next.originalText.isEmpty && next.file.isSome then
    match env.extractResult with
    | .ok traw =>
        .ok (if MAX_INPUT_LENGTH < traw.length then traw.take MAX_INPUT_LENGTH else traw)
    | .error e => .error (strFileReadFail e)
  else if next.originalText.isEmpty then
    .error strNoText
  else
    .ok next.originalText

/-- Result of running the per-item pipeline: the accumulated field updates
(the composition of every updateItemStatus call made for the item, applied
to a queue entry with the matching id) together with a record of which
gateway calls were made and the simulated translation delay. -/
structure PipelineResult where
  upd : QueueItem → QueueItem
  extractCalled : Bool
  translateCalled : Bool
  translateDelayMs : Nat
  synthesizeCalled : Bool

/-- Stage 3 of the pipeline: store translatedText, then attempt speech
synthesis; a failure is soft, the item still completes, with no audio
buffer and a synthesis-failure warning. -/
def finishSynthesis (env : StageOutcomes) (translated : Str)
    (upd0 : QueueItem → QueueItem) (extractCalled translateCalled : Bool)
    (delayMs : Nat) : PipelineResult :=
  match env.synthesizeResult with
  | .ok buf =>
      { upd := fun x =>
          { upd0 x with translatedText := some translated, status := .completed,
                        audioBuffer := some buf, error := none },
        extractCalled := extractCalled, translateCalled := translateCalled,
        translateDelayMs := delayMs, synthesizeCalled := true }
  | .error _ =>
      { upd := fun x =>
          { upd0 x with translatedText := some translated, status := .completed,
                        audioBuffer := none, error := some strTTSFail },
        extractCalled := extractCalled, translateCalled := translateCalled,
        translateDelayMs := delayMs, synthesizeCalled := true }

/-- The body of processNext for one selected item (lines 149-211 of the
component): extraction if needed, the empty-content guard, translation
(identity with a 300 ms simulated delay for Korean), then synthesis.
Hard failures go through errUpd; the later field updates of the source are
composed over the earlier ones. -/
def runPipeline (env : StageOutcomes) (next : QueueItem) : PipelineResult :=
  let extractCalled := next.originalText.isEmpty && next.file.isSome
  match effectiveText env next with
  | .error msg =>
      { upd := errUpd msg, extractCalled := extractCalled,
        translateCalled := false, translateDelayMs := 0, synthesizeCalled := false }
  | .ok t =>
      let upd0 : QueueItem → QueueItem :=
        if extractCalled then fun x => { x with originalText := t } else fun x => x
      if (jsTrim t).isEmpty then
        { upd := fun x => errUpd strEmptyContent (upd0 x), extractCalled := extractCalled,
          translateCalled := false, translateDelayMs := 0, synthesizeCalled := false }
      else
        match next.targetLanguage with
        | .korean => finishSynthesis env t upd0 extractCalled false 300
        | _ =>
            match env.translateResult with
            | .error e =>
                { upd := fun x => errUpd e (upd0 x), extractCalled := extractCalled,
                  translateCalled := true, translateDelayMs := 0, synthesizeCalled := false }
            | .ok tr => finishSynthesis env tr upd0 extractCalled true 0

/-- One iteration of the driving loop of processNext: if the processor is
stopped, do nothing; otherwise scan for the first idle item; with none,
stop the processor and clear the current item; otherwise mark it current
and run it through the pipeline, writing the accumulated updates back to
every queue entry with its id (updateItemStatus maps over the queue by id). -/
def processNextStep (env : Str → StageOutcomes) (s : AppState) : AppState :=
  if s.isProcessingQueue then
    match s.queue.find? (fun it => it.status == ProcessStatus.idle) with
    | none => { s with isProcessingQueue := false, currentItemId := none }
    | some next =>
        { s with
            currentItemId := some next.id,
            queue := s.queue.map (fun x =>
              if x.id == next.id then (runPipeline (env next.id) next).upd x else x) }
  else s

/-- One commit of the effect that drives the loop: the effect body invokes
processNext only while the processor is running and no current item is set;
with a current item set it lets that item finish and does nothing.  The
setTimeout re-invocation inside processNext never performs a further scan
in the program: the cleanup of the effect that launched the item sets its
cancellation flag at the first state commit of that item (and the closure
holds the stale pre-processing queue), so the only scans are the ones
launched here. -/
def effectRun (env : Str → StageOutcomes) (s : AppState) : AppState :=
  if s.isProcessingQueue && s.currentItemId.isNone then processNextStep env s else s

/-! ### Queue commands -/

/-- addToQueue: append the new items, clearing the global error. -/
def addToQueue (st : AppState) (items : List QueueItem) : AppState :=
  { st with queue := st.queue ++ items, globalError := none }

/-- The QueueItem pushed by handleFiles for an accepted file. -/
def queueItemOfFile (id : Str) (lang : TargetLanguage) (f : FileRef) : QueueItem :=
  { id := id, file := some f, fileName := f.name, originalText := [],
    translatedText := none, targetLanguage := lang, status := .idle,
    error := none, audioBuffer := none }

/-- The forEach loop of handleFiles: keep the files accepted by
isValidFileType, building a queue item for each; ids is the supply of
generated ids, consumed one per accepted file. -/
def buildItems (ids : Nat → Str) (lang : TargetLanguage) :
    List FileRef → Nat → List QueueItem
  | [], _ => []
  | f :: rest, k =>
      if isValidFileType f then
        queueItemOfFile (ids k) lang f :: buildItems ids lang rest (k + 1)
      else
        buildItems ids lang rest k

/-- handleFiles: filter the incoming files by type, raise the global error
when every file was rejected, otherwise enqueue the accepted ones. -/
def handleFiles (ids : Nat → Str) (st : AppState) (files : List FileRef) : AppState :=
  let newItems := buildItems ids st.selectedLanguage files 0
  if newItems.isEmpty && !files.isEmpty then
    { st with globalError := some strUnsupportedType }
  else
    addToQueue st newItems

/-! ### Playback controller

Wall-clock/audio-context time is modelled by rationals.  An
AudioBufferSourceNode is modelled by the buffer it plays together with the
value of the isPaused state binding captured by its onended closure: the
handler body reads the isPaused binding of the render in which playAudio
ran, and a React state read inside a closure sees that render snapshot, so
the value is fixed when the source is created.  Nulling the onended handler
followed by nulling the source reference (done by pauseAudio and stopAudio
before stopping the node) is modelled by clearing audioSource, after which
the end-of-audio event is a no-op. -/

structure SourceNode where
  buffer : AudioBuffer
  capturedIsPaused : Bool
deriving DecidableEq

/-- The playback-related component state: audioSourceRef, startTimeRef,
offsetRef, playingItemId, isPaused, playbackProgress, and whether a
progress-sampling animation frame is scheduled. -/
structure PlaybackState where
  audioSource : Option SourceNode
  startTime : ℚ
  offset : ℚ
  playingItemId : Option Str
  isPaused : Bool
  progress : ℚ
  animating : Bool
deriving DecidableEq

/-- The initial values of the refs and state hooks. -/
def initialPlayback : PlaybackState :=
  { audioSource := none, startTime := 0, offset := 0, playingItemId := none,
    isPaused := false, progress := 0, animating := false }

/-- stopAudio: detach and stop the source, cancel the sampling loop, clear
the playing item, reset the pause flag, the accumulated offset and the
progress. -/
def stopAudio (s : PlaybackState) : PlaybackState :=
  { s with audioSource := none, animating := false, playingItemId := none,
           isPaused := false, offset := 0, progress := 0 }

/-- pauseAudio: no-op without an active source; otherwise add the elapsed
time of the current playing interval to the accumulated offset, detach and
stop the source (handler nulled first), cancel the sampling loop and mark
paused.  playingItemId, progress and startTime are left untouched. -/
def pauseAudio (now : ℚ) (s : PlaybackState) : PlaybackState :=
  match s.audioSource with
  | none => s
  | some _ =>
      { s with offset := s.offset + (now - s.startTime),
               audioSource := none,
               animating := false,
               isPaused := true }

/-- playAudio: when not resuming, fully stop a different playing item, and
fully stop an existing source (restart); then create a source whose onended
closure captures the isPaused value of the render that invoked play, start
it at the stored offset when resuming and at zero otherwise, record the
session start time, mark the item playing, clear the pause flag and start
the progress-sampling loop. -/
def playAudio (now : ℚ) (buffer : AudioBuffer) (id : Str) (resume : Bool)
    (s0 : PlaybackState) : PlaybackState :=
  let captured := s0.isPaused
  let s1 := if !resume && s0.playingItemId.isSome && !(s0.playingItemId == some id)
            then stopAudio s0 else s0
  let s2 := if s1.audioSource.isSome && !resume then stopAudio s1 else s1
  let src : SourceNode := { buffer := buffer, capturedIsPaused := captured }
  { s2 with audioSource := some src,
            startTime := now,
            offset := if resume then s2.offset else 0,
            playingItemId := some id,
            isPaused := false,
            animating := true }

/-- One tick of the progress-sampling loop (updateProgress): with no active
source it does nothing; otherwise the progress is the share of the buffer
duration covered by the accumulated offset plus the elapsed time of the
current interval, capped at 100, and the loop reschedules itself only
while below 100. -/
def updateProgress (now : ℚ) (s : PlaybackState) : PlaybackState :=
  match s.audioSource with
  | none => s
  | some src =>
      let totalElapsed := s.offset + (now - s.startTime)
      let progress := min (totalElapsed / src.buffer.duration * 100) 100
      { s with progress := progress, animating := decide (progress < 100) }

/-- Natural end-of-audio: the onended event of the active source fires; the
handler resets the session via stopAudio unless the isPaused value captured
by its closure was true.  With no attached source (handler nulled and
source detached by pause or stop) nothing happens. -/
def onEnded (s : PlaybackState) : PlaybackState :=
  match s.audioSource with
  | none => s
  | some src => if src.capturedIsPaused then s else stopAudio s

/-- removeFromQueue: drop the item from the queue and, when it is the one
bound to the active playback session, tear the session down. -/
def removeFromQueue (id : Str) (app : AppState) (pb : PlaybackState) :
    AppState × PlaybackState :=
  ({ app with queue := app.queue.filter (fun it => !(it.id == id)) },
   if pb.playingItemId == some id then stopAudio pb else pb)

/-! ### Concrete fixtures used by the witnesses -/

def fxBuf : AudioBuffer := ⟨10⟩

def fxEnvOk : StageOutcomes :=
  { extractResult := .ok "추출된 본문".data,
    translateResult := .ok "translated text".data,
    synthesizeResult := .ok fxBuf }

def fxEnvTTSFail : StageOutcomes :=
  { fxEnvOk with synthesizeResult := .error "boom".data }

def fxEnvTranslateFail : StageOutcomes :=
  { fxEnvOk with translateResult := .error "번역 실패: x".data }

def fxItemManual : QueueItem :=
  { id := "i1".data, file := none, fileName := "직접 입력한 텍스트".data,
    originalText := "안전 교육 자료".data, translatedText := none,
    targetLanguage := .chinese, status := .idle, error := none, audioBuffer := none }

def fxItemKorean : QueueItem :=
  { fxItemManual with id := "i2".data, targetLanguage := .korean }

def fxItemFile : QueueItem :=
  { fxItemManual with id := "i3".data, originalText := [],
                      file := some ⟨"doc.txt".data, 500⟩ }

def fxItemCompleted : QueueItem :=
  { fxItemManual with id := "i4".data, status := .completed }

/-! ### Claim theorems -/

/-- Claim C1: for an item whose extraction (if needed) and translation
succeed but whose speech synthesis fails, the pipeline still marks the item
completed, stores no audio buffer, and records the synthesis-failure
warning in the error field; the failure never yields status error. -/
theorem c1_synthesis_soft_failure (env : StageOutcomes) (next : QueueItem) (t : Str)
    (htext : effectiveText env next = .ok t)
    (hguard : (jsTrim t).isEmpty = false)
    (htrans : next.targetLanguage = .korean ∨ ∃ tr, env.translateResult = .ok tr)
    (hsynth : ∃ e, env.synthesizeResult = .error e) :
    ((runPipeline env next).upd next).status = .completed ∧
    ((runPipeline env next).upd next).audioBuffer = none ∧
    ((runPipeline env next).upd next).error = some strTTSFail ∧
    ((runPipeline env next).upd next).status ≠ .error := by
  obtain ⟨e, he⟩ := hsynth
  cases hlang : next.targetLanguage
  case korean => simp [runPipeline, htext, hguard, hlang, finishSynthesis, he]
  all_goals
    rcases htrans with hk | ⟨tr, htr⟩
  all_goals try (rw [hlang] at hk; simp at hk)
  all_goals simp [runPipeline, htext, hguard, hlang, finishSynthesis, he, htr]

/-- Witness for C1: a concrete manual-text item whose synthesis call
rejects still completes with the warning and no audio. -/
theorem c1_synthesis_soft_failure_witness :
    ((runPipeline fxEnvTTSFail fxItemManual).upd fxItemManual).status = .completed ∧
    ((runPipeline fxEnvTTSFail fxItemManual).upd fxItemManual).audioBuffer = none ∧
    ((runPipeline fxEnvTTSFail fxItemManual).upd fxItemManual).error = some strTTSFail ∧
    ((runPipeline fxEnvTTSFail fxItemManual).upd fxItemManual).status ≠ .error :=
  c1_synthesis_soft_failure fxEnvTTSFail fxItemManual ("안전 교육 자료".data)
    (by rfl) (by decide) (Or.inr ⟨"translated text".data, rfl⟩) ⟨"boom".data, rfl⟩

/-- Claim C3: for an item whose extraction (when needed), translation and
synthesis all succeed, the final state is completed with the audio buffer
present and no error recorded. -/
theorem c3_full_success (env : StageOutcomes) (next : QueueItem) (t : Str) (buf : AudioBuffer)
    (htext : effectiveText env next = .ok t)
    (hguard : (jsTrim t).isEmpty = false)
    (htrans : next.targetLanguage = .korean ∨ ∃ tr, env.translateResult = .ok tr)
    (hsynth : env.synthesizeResult = .ok buf) :
    ((runPipeline env next).upd next).status = .completed ∧
    ((runPipeline env next).upd next).audioBuffer = some buf ∧
    ((runPipeline env next).upd next).error = none := by
  cases hlang : next.targetLanguage
  case korean => simp [runPipeline, htext, hguard, hlang, finishSynthesis, hsynth]
  all_goals
    rcases htrans with hk | ⟨tr, htr⟩
  all_goals try (rw [hlang] at hk; simp at hk)
  all_goals simp [runPipeline, htext, hguard, hlang, finishSynthesis, hsynth, htr]

/-- Witness for C3: the concrete manual-text item with every stage
succeeding ends completed, with audio and no error. -/
theorem c3_full_success_witness :
    ((runPipeline fxEnvOk fxItemManual).upd fxItemManual).status = .completed ∧
    ((runPipeline fxEnvOk fxItemManual).upd fxItemManual).audioBuffer = some fxBuf ∧
    ((runPipeline fxEnvOk fxItemManual).upd fxItemManual).error = none :=
  c3_full_success fxEnvOk fxItemManual ("안전 교육 자료".data) fxBuf
    (by rfl) (by decide) (Or.inr ⟨"translated text".data, rfl⟩) rfl

/-- Claim C8: when the target language is Korean the translating stage makes
no real translation call: the text is copied through unchanged after the
fixed 300 ms simulated delay, so the stored translatedText equals the final
originalText; for every other target language the real translate operation
is invoked. -/
theorem c8_korean_skips_translation (env : StageOutcomes) (next : QueueItem) (t : Str)
    (htext : effectiveText env next = .ok t)
    (hguard : (jsTrim t).isEmpty = false) :
    (next.targetLanguage = .korean →
       (runPipeline env next).translateCalled = false ∧
       (runPipeline env next).translateDelayMs = 300 ∧
       ((runPipeline env next).upd next).translatedText = some t ∧
       ((runPipeline env next).upd next).translatedText =
         some ((runPipeline env next).upd next).originalText) ∧
    (next.targetLanguage ≠ .korean → (runPipeline env next).translateCalled = true) := by
  have hmain : next.targetLanguage = .korean →
      (runPipeline env next).translateCalled = false ∧
      (runPipeline env next).translateDelayMs = 300 ∧
      ((runPipeline env next).upd next).translatedText = some t ∧
      ((runPipeline env next).upd next).originalText = t := by
    intro hk
    cases hc : (next.originalText.isEmpty && next.file.isSome)
    · have ht : next.originalText = t := by
        cases hoe : next.originalText.isEmpty
        · simp [effectiveText, hc, hoe] at htext
          exact htext
        · cases hfs : next.file.isSome
          · simp [effectiveText, hoe, hfs] at htext
          · simp [hoe, hfs] at hc
      cases hsy : env.synthesizeResult <;>
        simp [runPipeline, htext, hguard, hk, hc, finishSynthesis, hsy, ht] <;>
        (try (split <;> simp [ht]))
    · cases hsy : env.synthesizeResult <;>
        simp [runPipeline, htext, hguard, hk, hc, finishSynthesis, hsy]
  refine ⟨fun hk => ⟨(hmain hk).1, (hmain hk).2.1, (hmain hk).2.2.1, ?_⟩, ?_⟩
  · rw [(hmain hk).2.2.1, (hmain hk).2.2.2]
  · intro hnk
    cases hlang : next.targetLanguage
    case korean => exact absurd hlang hnk
    all_goals cases htr : env.translateResult <;>
      cases hsy : env.synthesizeResult <;>
      simp [runPipeline, htext, hguard, hlang, finishSynthesis, htr, hsy]

/-- Witness for C8: the Korean-target item completes with its text copied
through unchanged and no real translation call; the Chinese-target item
does invoke the translate operation. -/
theorem c8_korean_skips_translation_witness :
    ((runPipeline fxEnvOk fxItemKorean).translateCalled = false ∧
     (runPipeline fxEnvOk fxItemKorean).translateDelayMs = 300 ∧
     ((runPipeline fxEnvOk fxItemKorean).upd fxItemKorean).translatedText =
       some ("안전 교육 자료".data) ∧
     ((runPipeline fxEnvOk fxItemKorean).upd fxItemKorean).translatedText =
       some (((runPipeline fxEnvOk fxItemKorean).upd fxItemKorean).originalText)) ∧
    (runPipeline fxEnvOk fxItemManual).translateCalled = true :=
  ⟨(c8_korean_skips_translation fxEnvOk fxItemKorean ("안전 교육 자료".data)
      (by rfl) (by decide)).1 rfl,
   (c8_korean_skips_translation fxEnvOk fxItemManual ("안전 교육 자료".data)
      (by rfl) (by decide)).2 (by decide)⟩

/-- Claim C9: a successfully extracted document longer than
MAX_INPUT_LENGTH is stored clipped to exactly that length (a prefix of the
extracted text) rather than rejected, while a document at or under the
limit is stored unmodified. -/
theorem c9_extraction_truncation (env : StageOutcomes) (next : QueueItem) (traw : Str)
    (hempty : next.originalText.isEmpty = true)
    (hfile : next.file.isSome = true)
    (hex : env.extractResult = .ok traw) :
    effectiveText env next =
      .ok (if MAX_INPUT_LENGTH < traw.length then traw.take MAX_INPUT_LENGTH else traw) ∧
    (MAX_INPUT_LENGTH < traw.length →
       ((runPipeline env next).upd next).originalText = traw.take MAX_INPUT_LENGTH ∧
       ((runPipeline env next).upd next).originalText.length = MAX_INPUT_LENGTH) ∧
    (traw.length ≤ MAX_INPUT_LENGTH →
       ((runPipeline env next).upd next).originalText = traw) := by
  have hc : (next.originalText.isEmpty && next.file.isSome) = true := by
    rw [hempty, hfile]; rfl
  have htext : effectiveText env next =
      .ok (if MAX_INPUT_LENGTH < traw.length then traw.take MAX_INPUT_LENGTH else traw) := by
    simp [effectiveText, hc, hex]
  have hstore : ((runPipeline env next).upd next).originalText =
      (if MAX_INPUT_LENGTH < traw.length then traw.take MAX_INPUT_LENGTH else traw) := by
    cases hg : (jsTrim (if MAX_INPUT_LENGTH < traw.length
        then traw.take MAX_INPUT_LENGTH else traw)).isEmpty
    all_goals cases hlang : next.targetLanguage
    all_goals cases htr : env.translateResult
    all_goals cases hsy : env.synthesizeResult
    all_goals simp [runPipeline, htext, hc, hg, hlang, htr, hsy, finishSynthesis, errUpd]
  refine ⟨htext, fun hlong => ⟨?_, ?_⟩, fun hshort => ?_⟩
  · rw [hstore, if_pos hlong]
  · rw [hstore, if_pos hlong, List.length_take, Nat.min_eq_left (Nat.le_of_lt hlong)]
  · rw [hstore, if_neg (Nat.not_lt.mpr hshort)]

/-- Witness for C9: a 10001-character extracted document is stored clipped
to exactly 10000 characters. -/
theorem c9_extraction_truncation_witness :
    ((runPipeline
        { fxEnvOk with extractResult := .ok (List.replicate 10001 'x') }
        fxItemFile).upd fxItemFile).originalText.length = MAX_INPUT_LENGTH ∧
    ((runPipeline
        { fxEnvOk with extractResult := .ok (List.replicate 10001 'x') }
        fxItemFile).upd fxItemFile).originalText =
      (List.replicate 10001 'x').take MAX_INPUT_LENGTH :=
  have h := c9_extraction_truncation
    { fxEnvOk with extractResult := .ok (List.replicate 10001 'x') }
    fxItemFile (List.replicate 10001 'x') (by decide) (by decide) rfl
  have hlong : MAX_INPUT_LENGTH < (List.replicate 10001 'x').length := by
    rw [List.length_replicate, MAX_INPUT_LENGTH]; omega
  ⟨(h.2.1 hlong).2, (h.2.1 hlong).1⟩

/-- Claim C4: while the processor is running, a scan selects exactly the
first item in insertion order whose status is idle — hence never an error
or completed item, and never skipping an earlier idle item — and when no
idle item exists the step moves the processor to the stopped control state
with the current-item pointer cleared. -/
theorem c4_scan_first_idle (env : Str → StageOutcomes) (s : AppState)
    (hrun : s.isProcessingQueue = true) :
    (s.queue.find? (fun it => it.status == ProcessStatus.idle) = none →
       (processNextStep env s).isProcessingQueue = false ∧
       (processNextStep env s).currentItemId = none) ∧
    (∀ next, s.queue.find? (fun it => it.status == ProcessStatus.idle) = some next →
       next.status = .idle ∧ next.status ≠ .error ∧ next.status ≠ .completed ∧
       (∃ l1 l2, s.queue = l1 ++ next :: l2 ∧ ∀ x ∈ l1, x.status ≠ .idle) ∧
       (processNextStep env s).currentItemId = some next.id) := by
  constructor
  · intro hnone
    simp [processNextStep, hrun, hnone]
  · intro next hfind
    obtain ⟨hp, l1, l2, hq, hl1⟩ := List.find?_eq_some.mp hfind
    have hidle : next.status = .idle := by simpa using hp
    refine ⟨hidle, by simp [hidle], by simp [hidle], ⟨l1, l2, hq, ?_⟩, ?_⟩
    · intro x hx
      simpa using hl1 x hx
    · simp [processNextStep, hrun, hfind]

/-- Witness for C4: with no idle item the step stops the processor; with a
completed item ahead of an idle item the scan selects the idle one and
marks it current. -/
theorem c4_scan_first_idle_witness :
    ((processNextStep (fun _ => fxEnvOk)
        { queue := [fxItemCompleted], selectedLanguage := .chinese,
          isProcessingQueue := true, currentItemId := none, globalError := none,
          autoPlay := true }).isProcessingQueue = false ∧
     (processNextStep (fun _ => fxEnvOk)
        { queue := [fxItemCompleted], selectedLanguage := .chinese,
          isProcessingQueue := true, currentItemId := none, globalError := none,
          autoPlay := true }).currentItemId = none) ∧
    (processNextStep (fun _ => fxEnvOk)
        { queue := [fxItemCompleted, fxItemManual], selectedLanguage := .chinese,
          isProcessingQueue := true, currentItemId := none, globalError := none,
          autoPlay := true }).currentItemId = some ("i1".data) :=
  ⟨(c4_scan_first_idle (fun _ => fxEnvOk) _ rfl).1 (by decide),
   ((c4_scan_first_idle (fun _ => fxEnvOk) _ rfl).2 fxItemManual (by decide)).2.2.2.2⟩

/-- Environment assigning the translation-failure outcome to every item. -/
def fxEnvF : Str → StageOutcomes := fun _ => fxEnvTranslateFail

/-- A running processor over a completed item, a Chinese-target idle item
and a Korean-target idle item. -/
def fxQueueState : AppState :=
  { queue := [fxItemCompleted, fxItemManual, fxItemKorean], selectedLanguage := .chinese,
    isProcessingQueue := true, currentItemId := none, globalError := none, autoPlay := true }

/-- Claim C2, evaluated at its failing input.  The per-item hard-failure
policy holds: with the translation call rejecting, the Chinese-target item
ends in error with a recorded message and synthesis is never called (first
three conjuncts).  But the processor never proceeds to the next eligible
idle item: the start commit processes the failed item and sets
currentItemId, after which the Korean item is still the first eligible
idle item in the queue and the processor is still nominally running, yet
every further effect commit leaves the state unchanged — the queue has
halted and only a manual stop/start (which clears currentItemId) can
revive it. -/
theorem c2_queue_halts_after_failed_item :
    ((runPipeline (fxEnvF fxItemManual.id) fxItemManual).upd fxItemManual).status = .error ∧
    ((runPipeline (fxEnvF fxItemManual.id) fxItemManual).upd fxItemManual).error.isSome = true ∧
    (runPipeline (fxEnvF fxItemManual.id) fxItemManual).synthesizeCalled = false ∧
    (effectRun fxEnvF fxQueueState).currentItemId = some ("i1".data) ∧
    (effectRun fxEnvF fxQueueState).isProcessingQueue = true ∧
    (effectRun fxEnvF fxQueueState).queue.find?
        (fun it => it.status == ProcessStatus.idle) = some fxItemKorean ∧
    effectRun fxEnvF (effectRun fxEnvF fxQueueState) = effectRun fxEnvF fxQueueState := by
  decide

/-- Claim C5: pause adds the elapsed time of the current playing interval
to the accumulated offset and suspends the session without destroying it
(item binding kept, emission and sampling halted); an immediate resume at
the same instant starts from that same offset, and the sampled progress is
unchanged across the boundary. -/
theorem c5_pause_resume_continuity (s : PlaybackState) (src : SourceNode)
    (id : Str) (now : ℚ) (hsrc : s.audioSource = some src) :
    (pauseAudio now s).offset = s.offset + (now - s.startTime) ∧
    (pauseAudio now s).playingItemId = s.playingItemId ∧
    (pauseAudio now s).isPaused = true ∧
    (pauseAudio now s).audioSource = none ∧
    (pauseAudio now s).animating = false ∧
    (playAudio now src.buffer id true (pauseAudio now s)).offset =
      (pauseAudio now s).offset ∧
    (updateProgress now (playAudio now src.buffer id true (pauseAudio now s))).progress =
      (updateProgress now s).progress := by
  refine ⟨?_, ?_, ?_, ?_, ?_, ?_, ?_⟩ <;>
    simp [pauseAudio, playAudio, updateProgress, stopAudio, hsrc]

/-- A live playback session fixture: item a playing since time 1 with 2
seconds already accumulated. -/
def fxPb : PlaybackState :=
  { audioSource := some ⟨fxBuf, false⟩, startTime := 1, offset := 2,
    playingItemId := some ("a".data), isPaused := false, progress := 30,
    animating := true }

/-- Witness for C5 at the concrete live session, pausing and resuming at
time 5. -/
theorem c5_pause_resume_continuity_witness :
    (pauseAudio 5 fxPb).offset = fxPb.offset + (5 - fxPb.startTime) ∧
    (pauseAudio 5 fxPb).playingItemId = fxPb.playingItemId ∧
    (pauseAudio 5 fxPb).isPaused = true ∧
    (pauseAudio 5 fxPb).audioSource = none ∧
    (pauseAudio 5 fxPb).animating = false ∧
    (playAudio 5 fxBuf ("a".data) true (pauseAudio 5 fxPb)).offset =
      (pauseAudio 5 fxPb).offset ∧
    (updateProgress 5 (playAudio 5 fxBuf ("a".data) true (pauseAudio 5 fxPb))).progress =
      (updateProgress 5 fxPb).progress :=
  c5_pause_resume_continuity fxPb ⟨fxBuf, false⟩ ("a".data) 5 rfl

/-- Claim C6, evaluated at its failing input: a natural end of a session
with no pause history fully resets the session (first three conjuncts),
but after a pause at time 4 followed by an immediate resume, the onended
closure of the new source still holds the isPaused value of the render
that resumed (true), so the natural end-of-audio leaves the session fully
intact: still bound to the item, accumulated offset 4, nothing reset. -/
theorem c6_natural_end_stale_pause_capture :
    (onEnded (playAudio 0 fxBuf ("a".data) false initialPlayback)).playingItemId = none ∧
    (onEnded (playAudio 0 fxBuf ("a".data) false initialPlayback)).offset = 0 ∧
    (onEnded (playAudio 0 fxBuf ("a".data) false initialPlayback)).progress = 0 ∧
    onEnded (playAudio 4 fxBuf ("a".data) true
        (pauseAudio 4 (playAudio 0 fxBuf ("a".data) false initialPlayback))) =
      playAudio 4 fxBuf ("a".data) true
        (pauseAudio 4 (playAudio 0 fxBuf ("a".data) false initialPlayback)) ∧
    (playAudio 4 fxBuf ("a".data) true
        (pauseAudio 4 (playAudio 0 fxBuf ("a".data) false initialPlayback))).playingItemId =
      some ("a".data) ∧
    (playAudio 4 fxBuf ("a".data) true
        (pauseAudio 4 (playAudio 0 fxBuf ("a".data) false initialPlayback))).offset = 4 := by
  refine ⟨?_, ?_, ?_, ?_, ?_, ?_⟩ <;>
    simp [playAudio, pauseAudio, stopAudio, onEnded, initialPlayback] <;> norm_num

/-- Claim C7: at most one session exists and it never outlives its item.
Starting playback of item B while item A is actively playing behaves
exactly as stopping A first and then starting B, and the new session is a
fresh one for B (offset and progress zero).  Removing the item bound to
the active session tears the session down as part of the removal: the item
is gone from the queue and the session is fully reset. -/
theorem c7_single_session :
    (∀ (pb : PlaybackState) (now : ℚ) (buf : AudioBuffer) (srcA : SourceNode)
        (idA idB : Str),
        pb.playingItemId = some idA → pb.audioSource = some srcA →
        pb.isPaused = false → idA ≠ idB →
        playAudio now buf idB false pb = playAudio now buf idB false (stopAudio pb) ∧
        (playAudio now buf idB false pb).playingItemId = some idB ∧
        (playAudio now buf idB false pb).offset = 0 ∧
        (playAudio now buf idB false pb).progress = 0 ∧
        (playAudio now buf idB false pb).isPaused = false) ∧
    (∀ (app : AppState) (pb : PlaybackState) (id : Str),
        pb.playingItemId = some id →
        (∀ x ∈ (removeFromQueue id app pb).1.queue, x.id ≠ id) ∧
        (removeFromQueue id app pb).2.playingItemId = none ∧
        (removeFromQueue id app pb).2.audioSource = none ∧
        (removeFromQueue id app pb).2.offset = 0 ∧
        (removeFromQueue id app pb).2.progress = 0) := by
  constructor
  · intro pb now buf srcA idA idB hA hsrc hnp hne
    refine ⟨?_, ?_, ?_, ?_, ?_⟩ <;>
      simp [playAudio, stopAudio, hA, hsrc, hnp, hne]
  · intro app pb id hbound
    refine ⟨?_, ?_, ?_, ?_, ?_⟩ <;>
      simp [removeFromQueue, stopAudio, hbound]

/-- Witness for C7: playing item b over the live session of item a yields a
fresh session for b, and removing item a tears its session down. -/
theorem c7_single_session_witness :
    (playAudio 7 fxBuf ("b".data) false fxPb).playingItemId = some ("b".data) ∧
    (playAudio 7 fxBuf ("b".data) false fxPb).offset = 0 ∧
    (removeFromQueue ("a".data) fxQueueState fxPb).2.playingItemId = none ∧
    (removeFromQueue ("a".data) fxQueueState fxPb).2.offset = 0 :=
  ⟨(c7_single_session.1 fxPb 7 fxBuf ⟨fxBuf, false⟩ ("a".data) ("b".data)
      rfl rfl rfl (by decide)).2.1,
   (c7_single_session.1 fxPb 7 fxBuf ⟨fxBuf, false⟩ ("a".data) ("b".data)
      rfl rfl rfl (by decide)).2.2.1,
   (c7_single_session.2 fxQueueState fxPb ("a".data) rfl).2.1,
   (c7_single_session.2 fxQueueState fxPb ("a".data) rfl).2.2.2.1⟩

/-- Helper for C10: any file of a supported type appearing in the intake
list yields a corresponding fresh queue item in the built batch. -/
theorem buildItems_mem (ids : Nat → Str) (lang : TargetLanguage) :
    ∀ (files : List FileRef) (k : Nat) (f : FileRef),
      f ∈ files → isValidFileType f = true →
      ∃ it ∈ buildItems ids lang files k,
        it.file = some f ∧ it.fileName = f.name ∧ it.status = .idle ∧
        it.originalText = [] ∧ it.targetLanguage = lang
  | [], _, f, hf, _ => absurd hf (by simp)
  | g :: rest, k, f, hf, hv => by
      rcases List.mem_cons.mp hf with rfl | hmem
      · exact ⟨queueItemOfFile (ids k) lang f, by simp [buildItems, hv],
          rfl, rfl, rfl, rfl, rfl⟩
      · cases hg : isValidFileType g
        · obtain ⟨it, hin, hrest⟩ := buildItems_mem ids lang rest k f hmem hv
          exact ⟨it, by simp [buildItems, hg, hin], hrest⟩
        · obtain ⟨it, hin, hrest⟩ := buildItems_mem ids lang rest (k + 1) f hmem hv
          exact ⟨it, by simp [buildItems, hg, hin], hrest⟩

/-- Claim C10: handleFiles enqueues a fresh idle queue item for every file
whose name ends in a supported extension, for any byte size whatsoever —
the declared size limit (isValidFileSize) is consulted on no enqueue
path. -/
theorem c10_size_never_checked (ids : Nat → Str) (st : AppState) (files : List FileRef)
    (f : FileRef) (hmem : f ∈ files) (htype : isValidFileType f = true) :
    ∃ it ∈ (handleFiles ids st files).queue,
      it.file = some f ∧ it.fileName = f.name ∧ it.status = .idle ∧
      it.targetLanguage = st.selectedLanguage := by
  obtain ⟨it, hin, h1, h2, h3, _, h5⟩ :=
    buildItems_mem ids st.selectedLanguage files 0 f hmem htype
  have hne : (buildItems ids st.selectedLanguage files 0).isEmpty = false := by
    cases hbi : buildItems ids st.selectedLanguage files 0
    · rw [hbi] at hin; cases hin
    · rfl
  refine ⟨it, ?_, h1, h2, h3, h5⟩
  simp [handleFiles, hne, addToQueue]
  exact Or.inr hin

/-- A 10 MB pdf file, well over the declared 3 MB limit. -/
def fxBigFile : FileRef := ⟨"big.pdf".data, 10485760⟩

/-- Witness for C10: the oversized pdf fails the size validator yet is
still enqueued by handleFiles. -/
theorem c10_size_never_checked_witness :
    isValidFileSize fxBigFile = false ∧
    ∃ it ∈ (handleFiles (fun _ => "n1".data) fxQueueState [fxBigFile]).queue,
      it.file = some fxBigFile ∧ it.fileName = fxBigFile.name ∧ it.status = .idle ∧
      it.targetLanguage = fxQueueState.selectedLanguage :=
  ⟨by decide,
   c10_size_never_checked (fun _ => "n1".data) fxQueueState [fxBigFile] fxBigFile
     (by decide) (by decide)⟩

end SafetySpeak
